import Mathlib

/-!
Shallow embedding of the call-session orchestrator of the phone-bridge
repository: the wake debouncer (handleWake, doWake, partialWakeTimers and
lastWake in the server module), the speech-recognition client's audio queue
(ElevenLabsClient.sendAudio and flushPending), the agent turn coordinator
(ElevenLabsAgentClient.sendText and handleMessage), the playback announcer
(respondWithTts) and the audio blob store (audioStore with the audio route).
Timestamps are Nat milliseconds; setTimeout(f, d) scheduled at time t is
modelled as f running at time t + d.  Per-call maps become per-call state
records, since every claim is about a single call's entries.
-/

namespace Spec2Proof

/-!
### Wake debouncer

State per call.  lastWake models the lastWake map entry (absent initially;
the source reads it as `lastWake.get(callSid) || 0`).  timer models the
partialWakeTimers entry: the absolute time the scheduled callback runs and
the recorded partial text.  fired is the log of dispatched wake triggers
(doWake invocations), each with its trigger time and text.
-/

structure WakeState where
  lastWake : Option Nat
  timer : Option (Nat × String)
  fired : List (Nat × String)
deriving Repr, DecidableEq

def initWake : WakeState := ⟨none, none, []⟩

/-- The partial-wake timer callback (source: the setTimeout body inside
handleWake): delete the map entry, check `stillThrottled` against the clock
at fire time, and call doWake with the recorded text if not throttled.
doWake sets lastWake to the fire time and dispatches the trigger. -/
def fireTimer (s : WakeState) : WakeState :=
  match s.timer with
  | none => s
  | some (ft, txt) =>
    let s1 : WakeState := { s with timer := none }
    if ft - s1.lastWake.getD 0 < 8000 then s1
    else { s1 with lastWake := some ft, fired := s1.fired ++ [(ft, txt)] }

/-- A scheduled timer whose fire time has been reached runs before the next
arriving transcript event is handled. -/
def fireTimerIfDue (s : WakeState) (now : Nat) : WakeState :=
  match s.timer with
  | none => s
  | some (ft, _) => if ft ≤ now then fireTimer s else s

/-- handleWake from the server module: throttle check first
(`now - last < 8000` returns early); a partial transcript cancels any prior
timer and schedules a new one 2500 ms out recording the new text; a
committed transcript cancels any pending timer, sets lastWake and fires
doWake with the committed text at the current time. -/
def handleWake (s : WakeState) (t : Nat) (txt : String) (isCommitted : Bool) : WakeState :=
  if t - s.lastWake.getD 0 < 8000 then s
  else if isCommitted then
    { lastWake := some t, timer := none, fired := s.fired ++ [(t, txt)] }
  else
    { s with timer := some (t + 2500, txt) }

structure WakeEvent where
  time : Nat
  text : String
  committed : Bool
deriving Repr, DecidableEq

def wakeStep (s : WakeState) (e : WakeEvent) : WakeState :=
  handleWake (fireTimerIfDue s e.time) e.time e.text e.committed

def runWakeAux (s : WakeState) (es : List WakeEvent) : WakeState :=
  es.foldl wakeStep s

/-- Run a whole trace of transcript events (in time order) from the initial
state; after the last event the remaining scheduled timer, if any,
eventually fires. -/
def runWake (es : List WakeEvent) : WakeState :=
  fireTimer (runWakeAux initWake es)

/-- Two consecutive dispatched wake triggers are at least the 8000 ms
throttle window apart. -/
abbrev wakeGap (a b : Nat × String) : Prop := a.1 + 8000 ≤ b.1

/-- Invariant tying the throttle timestamp to the fired log: the log keeps
the throttle spacing, and lastWake is exactly the time of the last fired
trigger (absent when none fired yet). -/
def WakeInv (s : WakeState) : Prop :=
  s.fired.Chain' wakeGap ∧ s.lastWake = s.fired.getLast?.map Prod.fst

theorem wakeInv_init : WakeInv initWake := by
  constructor <;> simp [initWake]

theorem wakeInv_fire (fired : List (Nat × String)) (lw : Option Nat) (t : Nat) (tx : String)
    (hc : fired.Chain' wakeGap) (hlw : lw = fired.getLast?.map Prod.fst)
    (ht : ¬ (t - lw.getD 0 < 8000)) :
    (fired ++ [(t, tx)]).Chain' wakeGap ∧
      (some t : Option Nat) = (fired ++ [(t, tx)]).getLast?.map Prod.fst := by
  constructor
  · rw [List.chain'_append]
    refine ⟨hc, List.chain'_singleton _, ?_⟩
    intro x hx y hy
    simp only [List.head?_cons, Option.mem_def, Option.some.injEq] at hy
    subst hy
    have hxl : fired.getLast? = some x := hx
    have hlw' : lw = some x.1 := by rw [hlw, hxl]; rfl
    subst hlw'
    simp only [Option.getD_some] at ht
    show x.1 + 8000 ≤ t
    omega
  · rw [List.getLast?_concat]
    rfl

theorem wakeInv_handleWake (s : WakeState) (t : Nat) (tx : String) (c : Bool)
    (h : WakeInv s) : WakeInv (handleWake s t tx c) := by
  unfold handleWake
  split
  · exact h
  · split
    · rename_i hthr _
      exact wakeInv_fire s.fired s.lastWake t tx h.1 h.2 hthr
    · exact ⟨h.1, h.2⟩

theorem wakeInv_fireTimer (s : WakeState) (h : WakeInv s) : WakeInv (fireTimer s) := by
  unfold fireTimer
  match hm : s.timer with
  | none => exact h
  | some (ft, txt) =>
    simp only
    split
    · exact ⟨h.1, h.2⟩
    · rename_i hthr
      exact wakeInv_fire s.fired s.lastWake ft txt h.1 h.2 hthr

theorem wakeInv_fireTimerIfDue (s : WakeState) (now : Nat) (h : WakeInv s) :
    WakeInv (fireTimerIfDue s now) := by
  unfold fireTimerIfDue
  match hm : s.timer with
  | none => exact h
  | some (ft, txt) =>
    simp only
    split
    · exact wakeInv_fireTimer s h
    · exact h

theorem wakeInv_step (s : WakeState) (e : WakeEvent) (h : WakeInv s) :
    WakeInv (wakeStep s e) :=
  wakeInv_handleWake _ _ _ _ (wakeInv_fireTimerIfDue s e.time h)

theorem wakeInv_runAux (es : List WakeEvent) :
    ∀ s : WakeState, WakeInv s → WakeInv (runWakeAux s es) := by
  induction es with
  | nil => intro s h; exact h
  | cons e es ih =>
    intro s h
    exact ih (wakeStep s e) (wakeInv_step s e h)

theorem wakeInv_run (es : List WakeEvent) : WakeInv (runWake es) :=
  wakeInv_fireTimer _ (wakeInv_runAux es initWake wakeInv_init)

/-- Claim C1: for every call, a committed wake-matching transcript processed
less than 8 seconds (the throttle window) after the last fired wake fires no
new wake, and over any event trace no two dispatched wake triggers are less
than the throttle window apart, measured from trigger time to trigger
time. -/
theorem wake_throttle_spacing :
    (∀ es : List WakeEvent, (runWake es).fired.Chain' wakeGap) ∧
    (∀ (s : WakeState) (t : Nat) (tx : String), t < s.lastWake.getD 0 + 8000 →
      (handleWake s t tx true).fired = s.fired) := by
  constructor
  · intro es
    exact (wakeInv_run es).1
  · intro s t tx h
    unfold handleWake
    have : t - s.lastWake.getD 0 < 8000 := by omega
    simp [this]

/-- Witness for C1: with a wake fired at t = 8000, a committed match at
t = 12000 (inside the window) is suppressed. -/
theorem wake_throttle_spacing_witness :
    (handleWake ⟨some 8000, none, [(8000, "hey assistant")]⟩ 12000 "hey assistant" true).fired
      = [(8000, "hey assistant")] :=
  wake_throttle_spacing.2 ⟨some 8000, none, [(8000, "hey assistant")]⟩ 12000 "hey assistant"
    (by decide)

def partialEvents (ps : List (Nat × String)) : List WakeEvent :=
  ps.map fun p => ⟨p.1, p.2, false⟩

/-- Consecutive partials are in time order and each arrives before the
debounce timer scheduled by the previous one would fire. -/
abbrev partialStepOK (a b : Nat × String) : Prop := a.1 ≤ b.1 ∧ b.1 < a.1 + 2500

def c2Events : List WakeEvent :=
  [⟨100000, "first", false⟩, ⟨105000, "second", false⟩]

/-- Counterexample for C2: two partials 5000 ms apart with no commit.  The
debounce timer of the first partial fires at 102500 with the FIRST text,
before the second partial even arrives; the claimed single wake at 107500
with the last text does not happen. -/
theorem partial_debounce_counterexample :
    (runWake c2Events).fired = [(102500, "first")] ∧
      (runWake c2Events).fired ≠ [(107500, "second")] := by
  constructor
  · rfl
  · decide

theorem runWakeAux_partials (rest : List (Nat × String)) :
    ∀ p : Nat × String, 8000 ≤ p.1 → (p :: rest).Chain' partialStepOK →
    runWakeAux ⟨none, some (p.1 + 2500, p.2), []⟩ (partialEvents rest)
      = ⟨none, some ((rest.getLastD p).1 + 2500, (rest.getLastD p).2), []⟩ := by
  induction rest with
  | nil =>
    intro p _ _
    rfl
  | cons q rest ih =>
    intro p h8 hch
    rw [List.chain'_cons] at hch
    obtain ⟨⟨hle, hlt⟩, hch'⟩ := hch
    have hstep : wakeStep ⟨none, some (p.1 + 2500, p.2), []⟩ ⟨q.1, q.2, false⟩
        = ⟨none, some (q.1 + 2500, q.2), []⟩ := by
      unfold wakeStep fireTimerIfDue
      simp only
      have hnotdue : ¬ (p.1 + 2500 ≤ q.1) := by omega
      rw [if_neg hnotdue]
      unfold handleWake
      have hthr : ¬ (q.1 - (Option.getD (none : Option Nat) 0) < 8000) := by
        simp only [Option.getD_none]
        omega
      rw [if_neg hthr]
      rfl
    show runWakeAux ⟨none, some (p.1 + 2500, p.2), []⟩
        (⟨q.1, q.2, false⟩ :: partialEvents rest) = _
    rw [runWakeAux, List.foldl_cons, hstep, ← runWakeAux]
    rw [List.getLastD_cons]
    exact ih q (by omega) hch'

theorem partials_getLastD_time (rest : List (Nat × String)) :
    ∀ p : Nat × String, (p :: rest).Chain' partialStepOK → p.1 ≤ (rest.getLastD p).1 := by
  induction rest with
  | nil => intro p _; exact Nat.le_refl _
  | cons q rest ih =>
    intro p hch
    rw [List.chain'_cons] at hch
    rw [List.getLastD_cons]
    exact Nat.le_trans hch.1.1 (ih q hch.2)

/-- Claim C2, amended: for every nonempty sequence of partial wake-matching
transcripts starting with the throttle window elapsed (no previously fired
wake; first partial at or after t = 8000), in which each later partial
arrives before the previous partial's debounce timer fires (less than
2500 ms after it), and which ends with no committed transcript, exactly one
wake fires, 2500 ms after the last partial, carrying the last partial's
text. -/
theorem partial_debounce_amended (p : Nat × String) (rest : List (Nat × String))
    (h8 : 8000 ≤ p.1) (hch : (p :: rest).Chain' partialStepOK) :
    (runWake (partialEvents (p :: rest))).fired
      = [((rest.getLastD p).1 + 2500, (rest.getLastD p).2)] := by
  have hfirst : wakeStep initWake ⟨p.1, p.2, false⟩ = ⟨none, some (p.1 + 2500, p.2), []⟩ := by
    unfold wakeStep fireTimerIfDue initWake
    simp only
    unfold handleWake
    have hthr : ¬ (p.1 - (Option.getD (none : Option Nat) 0) < 8000) := by
      simp only [Option.getD_none]
      omega
    rw [if_neg hthr]
    rfl
  have hlast : 8000 ≤ (rest.getLastD p).1 := Nat.le_trans h8 (partials_getLastD_time rest p hch)
  have hrun : runWake (partialEvents (p :: rest))
      = ⟨some ((rest.getLastD p).1 + 2500), none,
        [((rest.getLastD p).1 + 2500, (rest.getLastD p).2)]⟩ := by
    show fireTimer (runWakeAux initWake (⟨p.1, p.2, false⟩ :: partialEvents rest)) = _
    rw [runWakeAux, List.foldl_cons, hfirst, ← runWakeAux,
      runWakeAux_partials rest p h8 hch]
    unfold fireTimer
    simp only
    have hthr : ¬ ((rest.getLastD p).1 + 2500 - (Option.getD (none : Option Nat) 0) < 8000) := by
      simp only [Option.getD_none]
      omega
    rw [if_neg hthr]
    rfl
  rw [hrun]

/-- Witness for the amended C2: partials at 9000 and 10000 with no commit
fire one wake at 12500 with the second text. -/
theorem partial_debounce_amended_witness :
    (runWake (partialEvents [(9000, "hey a"), (10000, "hey assistant please")])).fired
      = [(12500, "hey assistant please")] :=
  partial_debounce_amended (9000, "hey a") [(10000, "hey assistant please")]
    (by decide)
    (List.chain'_cons.mpr ⟨⟨by decide, by decide⟩, List.chain'_singleton _⟩)

/-- Claim C3: a committed wake-matching transcript processed while a
partial-debounce timer is pending (and before that timer fires), with the
throttle window elapsed, cancels that pending timer and fires the wake with
the committed text at the committed transcript's time, never with the
recorded partial text. -/
theorem committed_overrides_pending_timer (s : WakeState) (t ft : Nat) (ptx ctx : String)
    (hp : s.timer = some (ft, ptx)) (hbefore : t < ft)
    (hthr : s.lastWake.getD 0 + 8000 ≤ t) :
    wakeStep s ⟨t, ctx, true⟩
      = { lastWake := some t, timer := none, fired := s.fired ++ [(t, ctx)] } := by
  unfold wakeStep fireTimerIfDue
  rw [hp]
  simp only
  rw [if_neg (by omega : ¬ (ft ≤ t))]
  unfold handleWake
  rw [if_neg (by omega : ¬ (t - s.lastWake.getD 0 < 8000))]
  rfl

/-- Witness for C3: pending partial timer recorded ("hey assist", due at
13000); a committed transcript at 11000 cancels it and fires with the
committed text. -/
theorem committed_overrides_pending_timer_witness :
    wakeStep ⟨none, some (13000, "hey assist"), []⟩ ⟨11000, "hey assistant now", true⟩
      = ⟨some 11000, none, [(11000, "hey assistant now")]⟩ :=
  committed_overrides_pending_timer ⟨none, some (13000, "hey assist"), []⟩ 11000 13000
    "hey assist" "hey assistant now" rfl (by decide) (by decide)

/-!
### Speech Recognition client audio queue

ElevenLabsClient: ready flag, pending FIFO array, and the websocket writes.
sent logs the frames written to the socket, in order; a frame is an opaque
byte buffer (List Nat).  sendAudio forwards when ready, otherwise appends to
pending; the open handler sets ready and calls flushPending, which shifts
the queue onto the socket in original order; close clears the queue.
-/

structure SttState where
  ready : Bool
  pending : List (List Nat)
  sent : List (List Nat)
deriving Repr, DecidableEq

def sttInit : SttState := ⟨false, [], []⟩

def sendAudio (s : SttState) (f : List Nat) : SttState :=
  if s.ready then { s with sent := s.sent ++ [f] }
  else { s with pending := s.pending ++ [f] }

def flushPending (s : SttState) : SttState :=
  if s.ready then { s with sent := s.sent ++ s.pending, pending := [] }
  else s

def sttOpen (s : SttState) : SttState :=
  flushPending { s with ready := true }

def sttClose (s : SttState) : SttState :=
  { s with ready := false, pending := [] }

theorem sendAudio_fold_notReady (pre : List (List Nat)) :
    ∀ s : SttState, s.ready = false →
    pre.foldl sendAudio s = { s with pending := s.pending ++ pre } := by
  induction pre with
  | nil => intro s _; simp
  | cons f pre ih =>
    intro s hr
    rw [List.foldl_cons]
    have h1 : sendAudio s f = { s with pending := s.pending ++ [f] } := by
      unfold sendAudio
      rw [hr]
      simp
    rw [h1, ih _ (by simp [hr])]
    simp

theorem sendAudio_fold_ready (post : List (List Nat)) :
    ∀ s : SttState, s.ready = true →
    post.foldl sendAudio s = { s with sent := s.sent ++ post } := by
  induction post with
  | nil => intro s _; simp
  | cons f post ih =>
    intro s hr
    rw [List.foldl_cons]
    have h1 : sendAudio s f = { s with sent := s.sent ++ [f] } := by
      unfold sendAudio
      rw [hr]
      simp
    rw [h1, ih _ (by simp [hr])]
    simp

/-- Claim C4: frames sent before the Speech Recognition connection is ready
are appended to a FIFO queue (nothing is written yet), and when the
connection opens the whole queue is flushed in original arrival order
before any newly arriving frame; the final socket write log is exactly the
two arrival sequences concatenated, with no frame duplicated or dropped and
an empty residual queue. -/
theorem audio_fifo_flush (pre post : List (List Nat)) :
    (pre.foldl sendAudio sttInit).sent = [] ∧
    (pre.foldl sendAudio sttInit).pending = pre ∧
    (post.foldl sendAudio (sttOpen (pre.foldl sendAudio sttInit))).sent = pre ++ post ∧
    (post.foldl sendAudio (sttOpen (pre.foldl sendAudio sttInit))).pending = [] := by
  have h1 : pre.foldl sendAudio sttInit = ⟨false, pre, []⟩ := by
    rw [sendAudio_fold_notReady pre sttInit rfl]
    simp [sttInit]
  have h2 : sttOpen (⟨false, pre, []⟩ : SttState) = ⟨true, [], pre⟩ := by
    unfold sttOpen flushPending
    simp
  have h3 : post.foldl sendAudio (⟨true, [], pre⟩ : SttState) = ⟨true, [], pre ++ post⟩ := by
    rw [sendAudio_fold_ready post _ rfl]
  rw [h1, h2, h3]
  exact ⟨rfl, rfl, rfl, rfl⟩

/-!
### Agent Turn Coordinator

ElevenLabsAgentClient.  sendText resets the shared responseBuffer and
firstResolved, registers the promise resolver (pendingResolve, tagged here
with a wait identifier so distinct waits can be told apart) and schedules a
15000 ms timeout whose callback resolves whatever resolver is current at
fire time with `responseBuffer || null`.  handleMessage's
agent_chat_response_part branch: a start fragment clears the buffer, a
delta appends, a stop with a nonempty buffer resolves the pending wait or,
if a first wait already resolved, delivers to the subsequent-response
callback, and always clears the buffer; a stop with an empty buffer does
nothing.  Nothing in these handlers closes the websocket; close() is the
only operation setting closed.
-/

inductive AgentEvent where
  | sendT (wid : Nat)
  | start
  | delta (t : String)
  | stop
  | timeout
deriving Repr, DecidableEq

structure AgentState where
  responseBuffer : String
  pendingResolve : Option Nat
  firstResolved : Bool
  resolved : List (Nat × Option String)
  subsequent : List String
  closed : Bool
deriving Repr, DecidableEq

def agentInit : AgentState := ⟨"", none, false, [], [], false⟩

def handleA (s : AgentState) : AgentEvent → AgentState
  | .sendT w => { s with responseBuffer := "", firstResolved := false, pendingResolve := some w }
  | .start => { s with responseBuffer := "" }
  | .delta t => { s with responseBuffer := s.responseBuffer ++ t }
  | .stop =>
    if s.responseBuffer = "" then s
    else
      match s.pendingResolve with
      | some w =>
        { s with resolved := s.resolved ++ [(w, some s.responseBuffer)],
                 pendingResolve := none, firstResolved := true, responseBuffer := "" }
      | none =>
        if s.firstResolved then
          { s with subsequent := s.subsequent ++ [s.responseBuffer], responseBuffer := "" }
        else { s with responseBuffer := "" }
  | .timeout =>
    match s.pendingResolve with
    | some w =>
      { s with resolved := s.resolved ++
                 [(w, if s.responseBuffer = "" then none else some s.responseBuffer)],
               pendingResolve := none, firstResolved := true }
    | none => s

/-- close(): the only operation that closes the websocket. -/
def closeAgent (s : AgentState) : AgentState :=
  { s with closed := true }

inductive AgentMsg where
  | start
  | delta (t : String)
  | stop
deriving Repr, DecidableEq

def msgEvent : AgentMsg → AgentEvent
  | .start => .start
  | .delta t => .delta t
  | .stop => .stop

/-- One sendText call (wait id 0) followed by the timestamped reply
fragments: fragments arriving before 15000 ms are handled before the
timeout callback fires, the rest after it. -/
def runAgentWait (msgs : List (Nat × AgentMsg)) : AgentState :=
  let before := (msgs.filter fun m => decide (m.1 < 15000)).map fun m => msgEvent m.2
  let after := (msgs.filter fun m => decide (15000 ≤ m.1)).map fun m => msgEvent m.2
  (AgentEvent.sendT 0 :: before ++ AgentEvent.timeout :: after).foldl handleA agentInit

/-- The buffer accumulated at the moment the 15 s timeout fires. -/
def midBuf (msgs : List (Nat × AgentMsg)) : String :=
  ((AgentEvent.sendT 0 ::
      (msgs.filter fun m => decide (m.1 < 15000)).map fun m => msgEvent m.2).foldl
    handleA agentInit).responseBuffer

def joinDeltas (ds : List String) : String := ds.foldl (fun a b => a ++ b) ""

/-- A start fragment, the given deltas and a stop fragment, all inside the
15 s window. -/
def stopTrace (ds : List String) : List (Nat × AgentMsg) :=
  (1, AgentMsg.start) :: ds.map (fun d => (2, AgentMsg.delta d)) ++ [(3, AgentMsg.stop)]

def c5Events : List (Nat × AgentMsg) := [(0, .start), (100, .delta "Hi")]

/-- Counterexample for C5: a start and a delta arrive but no stop fragment
ever does.  At the 15 s timeout the code resolves the wait with the partial
buffer "Hi", not with a null result as the claim states. -/
theorem sendText_timeout_counterexample :
    (runAgentWait c5Events).resolved = [(0, some "Hi")] ∧
      (runAgentWait c5Events).resolved ≠ [(0, none)] := by
  constructor
  · rfl
  · decide

theorem handleA_closed (s : AgentState) (e : AgentEvent) :
    (handleA s e).closed = s.closed := by
  cases e with
  | sendT w => rfl
  | start => rfl
  | delta t => rfl
  | stop =>
    simp only [handleA]
    split
    · rfl
    · split
      · rfl
      · split <;> rfl
  | timeout =>
    simp only [handleA]
    split <;> rfl

theorem handleA_fold_closed (evs : List AgentEvent) :
    ∀ s : AgentState, (evs.foldl handleA s).closed = s.closed := by
  induction evs with
  | nil => intro s; rfl
  | cons e evs ih =>
    intro s
    rw [List.foldl_cons, ih, handleA_closed]

theorem handleA_fold_noStop (evs : List AgentEvent) :
    ∀ s : AgentState, (∀ e ∈ evs, e = .start ∨ ∃ t, e = .delta t) →
    (evs.foldl handleA s).pendingResolve = s.pendingResolve ∧
    (evs.foldl handleA s).resolved = s.resolved ∧
    (evs.foldl handleA s).firstResolved = s.firstResolved ∧
    (evs.foldl handleA s).subsequent = s.subsequent := by
  induction evs with
  | nil => intro s _; exact ⟨rfl, rfl, rfl, rfl⟩
  | cons e evs ih =>
    intro s he
    have he1 := he e (List.mem_cons_self e evs)
    have hrest : ∀ e' ∈ evs, e' = .start ∨ ∃ t, e' = .delta t :=
      fun e' h => he e' (List.mem_cons_of_mem e h)
    rw [List.foldl_cons]
    rcases he1 with h | ⟨t, h⟩ <;> subst h <;>
      exact (ih (handleA s _) hrest).imp id id

theorem handleA_fold_notPending (evs : List AgentEvent) :
    ∀ s : AgentState, (∀ e ∈ evs, e ≠ .timeout ∧ ∀ w, e ≠ .sendT w) →
    s.pendingResolve = none →
    (evs.foldl handleA s).pendingResolve = none ∧
    (evs.foldl handleA s).resolved = s.resolved := by
  induction evs with
  | nil => intro s _ hp; exact ⟨hp, rfl⟩
  | cons e evs ih =>
    intro s he hp
    have he1 := he e (List.mem_cons_self e evs)
    have hrest : ∀ e' ∈ evs, e' ≠ .timeout ∧ ∀ w, e' ≠ .sendT w :=
      fun e' h => he e' (List.mem_cons_of_mem e h)
    rw [List.foldl_cons]
    cases e with
    | sendT w => exact absurd rfl (he1.2 w)
    | timeout => exact absurd rfl he1.1
    | start => exact ih _ hrest hp
    | delta t => exact ih _ hrest hp
    | stop =>
      have hs : (handleA s .stop).pendingResolve = none ∧
          (handleA s .stop).resolved = s.resolved := by
        simp only [handleA, hp]
        split
        · exact ⟨hp, rfl⟩
        · split <;> exact ⟨rfl, rfl⟩
      obtain ⟨h1, h2⟩ := ih _ hrest hs.1
      exact ⟨h1, h2.trans hs.2⟩

theorem handleA_fold_deltas (ds : List String) :
    ∀ s : AgentState,
    (ds.map AgentEvent.delta).foldl handleA s
      = { s with responseBuffer := ds.foldl (fun a b => a ++ b) s.responseBuffer } := by
  induction ds with
  | nil => intro s; simp
  | cons d ds ih =>
    intro s
    rw [List.map_cons, List.foldl_cons, List.foldl_cons]
    exact ih { s with responseBuffer := s.responseBuffer ++ d }

theorem handleA_timeout_pending (s : AgentState) (w : Nat) (hp : s.pendingResolve = some w) :
    handleA s .timeout
      = { s with
          resolved := s.resolved ++ [(w, if s.responseBuffer = "" then none else some s.responseBuffer)],
          pendingResolve := none,
          firstResolved := true } := by
  simp only [handleA, hp]

theorem runAgentWait_closed (msgs : List (Nat × AgentMsg)) :
    (runAgentWait msgs).closed = false := by
  simp only [runAgentWait]
  exact handleA_fold_closed _ _

theorem stopTrace_run (ds : List String) (hne : joinDeltas ds ≠ "") :
    runAgentWait (stopTrace ds) = ⟨"", none, true, [(0, some (joinDeltas ds))], [], false⟩ := by
  have hfil1 : (stopTrace ds).filter (fun m => decide (m.1 < 15000)) = stopTrace ds := by
    rw [List.filter_eq_self]
    intro a ha
    simp only [stopTrace, List.mem_cons, List.mem_append, List.mem_map,
      List.mem_singleton, List.mem_nil_iff, or_false] at ha
    rcases ha with (rfl | ⟨d, _, rfl⟩) | rfl <;> simp
  have hfil2 : (stopTrace ds).filter (fun m => decide (15000 ≤ m.1)) = [] := by
    rw [List.filter_eq_nil_iff]
    intro a ha
    simp only [stopTrace, List.mem_cons, List.mem_append, List.mem_map,
      List.mem_singleton, List.mem_nil_iff, or_false] at ha
    rcases ha with (rfl | ⟨d, _, rfl⟩) | rfl <;> simp
  have hmap : (stopTrace ds).map (fun m => msgEvent m.2)
      = AgentEvent.start :: ds.map AgentEvent.delta ++ [AgentEvent.stop] := by
    simp only [stopTrace, List.map_cons, List.map_append, List.map_map, List.map_cons,
      List.map_nil]
    rfl
  have h2 : (ds.map AgentEvent.delta).foldl handleA ⟨"", some 0, false, [], [], false⟩
      = ⟨joinDeltas ds, some 0, false, [], [], false⟩ := by
    rw [handleA_fold_deltas]
    rfl
  have h3 : handleA ⟨joinDeltas ds, some 0, false, [], [], false⟩ AgentEvent.stop
      = ⟨"", none, true, [(0, some (joinDeltas ds))], [], false⟩ := by
    simp only [handleA]
    rw [if_neg hne]
    rfl
  simp only [runAgentWait, hfil1, hfil2, hmap, List.map_nil]
  simp only [List.cons_append, List.append_assoc, List.singleton_append]
  rw [List.foldl_cons, List.foldl_cons, List.foldl_append]
  show List.foldl handleA
      ((ds.map AgentEvent.delta).foldl handleA ⟨"", some 0, false, [], [], false⟩)
      [AgentEvent.stop, AgentEvent.timeout] = _
  rw [h2]
  show handleA (handleA ⟨joinDeltas ds, some 0, false, [], [], false⟩ AgentEvent.stop)
      AgentEvent.timeout = _
  rw [h3]
  rfl

/-- Claim C5, amended: when the stop fragment arrives inside the 15 s
window and the deltas accumulated between start and stop are nonempty, the
synchronous wait resolves to their concatenation.  When no stop fragment
arrives inside the window, the 15 s timeout resolves the wait with the
partial buffer accumulated so far if it is nonempty, and with a null
(absent) result only if that buffer is empty; in every case the underlying
connection is left open. -/
theorem agent_wait_resolution :
    (∀ ds : List String, joinDeltas ds ≠ "" →
      (runAgentWait (stopTrace ds)).resolved = [(0, some (joinDeltas ds))] ∧
      (runAgentWait (stopTrace ds)).closed = false) ∧
    (∀ msgs : List (Nat × AgentMsg), (∀ m ∈ msgs, m.1 < 15000 → m.2 ≠ AgentMsg.stop) →
      (runAgentWait msgs).resolved
        = [(0, if midBuf msgs = "" then none else some (midBuf msgs))] ∧
      (runAgentWait msgs).closed = false) := by
  constructor
  · intro ds hne
    rw [stopTrace_run ds hne]
    exact ⟨rfl, rfl⟩
  · intro msgs hstop
    refine ⟨?_, runAgentWait_closed msgs⟩
    have hbefore : ∀ e ∈ (msgs.filter fun m => decide (m.1 < 15000)).map
        (fun m => msgEvent m.2), e = AgentEvent.start ∨ ∃ t, e = AgentEvent.delta t := by
      intro e he
      rw [List.mem_map] at he
      obtain ⟨m, hm, rfl⟩ := he
      rw [List.mem_filter] at hm
      have hlt : m.1 < 15000 := of_decide_eq_true hm.2
      have hns := hstop m hm.1 hlt
      cases hm2 : m.2 with
      | start => exact Or.inl rfl
      | delta t => exact Or.inr ⟨t, rfl⟩
      | stop => exact absurd hm2 hns
    have hafter : ∀ e ∈ (msgs.filter fun m => decide (15000 ≤ m.1)).map
        (fun m => msgEvent m.2), e ≠ AgentEvent.timeout ∧ ∀ w, e ≠ AgentEvent.sendT w := by
      intro e he
      rw [List.mem_map] at he
      obtain ⟨m, _, rfl⟩ := he
      cases m.2 <;> exact ⟨by simp [msgEvent], fun w => by simp [msgEvent]⟩
    have h1 := handleA_fold_noStop
      ((msgs.filter fun m => decide (m.1 < 15000)).map (fun m => msgEvent m.2))
      ⟨"", some 0, false, [], [], false⟩ hbefore
    have htime := handleA_timeout_pending
      (((msgs.filter fun m => decide (m.1 < 15000)).map (fun m => msgEvent m.2)).foldl
        handleA ⟨"", some 0, false, [], [], false⟩) 0 h1.1
    have h2 := handleA_fold_notPending
      ((msgs.filter fun m => decide (15000 ≤ m.1)).map (fun m => msgEvent m.2))
      (handleA (((msgs.filter fun m => decide (m.1 < 15000)).map
        (fun m => msgEvent m.2)).foldl handleA ⟨"", some 0, false, [], [], false⟩)
        AgentEvent.timeout)
      hafter (by rw [htime])
    simp only [runAgentWait]
    rw [List.foldl_append, List.foldl_cons, List.foldl_cons]
    show (((msgs.filter fun m => decide (15000 ≤ m.1)).map (fun m => msgEvent m.2)).foldl
        handleA
        (handleA (((msgs.filter fun m => decide (m.1 < 15000)).map
          (fun m => msgEvent m.2)).foldl handleA ⟨"", some 0, false, [], [], false⟩)
          AgentEvent.timeout)).resolved = _
    rw [h2.2, htime]
    simp only [h1.2.1, List.nil_append]
    rfl

/-- Witness for the amended C5: deltas "He", "llo" then stop inside the
window resolve the wait to their concatenation; a lone start fragment with
no stop resolves to a null result at the timeout. -/
theorem agent_wait_resolution_witness :
    ((runAgentWait (stopTrace ["He", "llo"])).resolved
        = [(0, some (joinDeltas ["He", "llo"]))] ∧
      (runAgentWait (stopTrace ["He", "llo"])).closed = false) ∧
    ((runAgentWait [(0, AgentMsg.start)]).resolved
        = [(0, if midBuf [(0, AgentMsg.start)] = "" then none
              else some (midBuf [(0, AgentMsg.start)]))] ∧
      (runAgentWait [(0, AgentMsg.start)]).closed = false) :=
  ⟨agent_wait_resolution.1 ["He", "llo"] (by decide),
   agent_wait_resolution.2 [(0, AgentMsg.start)] (by decide)⟩

def c6Trace : List AgentEvent :=
  [.sendT 1, .start, .delta "Answer part", .sendT 2, .delta "Reply2", .timeout, .timeout]

/-- Claim C6 failing input (code bug): sendText for wait 1 is pending with
the partial reply "Answer part" accumulated when a second sendText (wait 2)
is invoked.  The second call is neither rejected nor queued: it wipes the
shared buffer, replaces the pending resolver, and the FIRST wait's 15 s
timer then resolves the SECOND wait; wait 1 never resolves at all.  Two
waits were simultaneously outstanding and the first one's reply buffer was
destroyed. -/
theorem overlapping_sendText_drops_first_wait :
    (c6Trace.foldl handleA agentInit).resolved = [(2, some "Reply2")] ∧
      (c6Trace.foldl handleA agentInit).resolved.filter (fun r => decide (r.1 = 1)) = [] := by
  constructor
  · rfl
  · rfl

/-- Claim C10: a stop fragment processed while the accumulated reply buffer
is empty (start directly followed by stop, or no start at all) changes
nothing: no value is delivered to the synchronous wait and nothing is
delivered to the subsequent-response callback. -/
theorem empty_reply_not_delivered (s : AgentState) (h : s.responseBuffer = "") :
    handleA s AgentEvent.stop = s := by
  simp [handleA, h]

/-- Witness for C10: a stop right after sendText and start delivers
nothing. -/
theorem empty_reply_not_delivered_witness :
    handleA ⟨"", some 0, false, [], [], false⟩ AgentEvent.stop
      = ⟨"", some 0, false, [], [], false⟩ :=
  empty_reply_not_delivered ⟨"", some 0, false, [], [], false⟩ rfl

/-!
### Playback announcer

respondWithTts(callSid, text).  Guards in source order: missing twilio
client, missing PUBLIC_BASE_URL, missing callSid each log a warning and
return (skip).  Then the text is synthesized (a synthesis error propagates
to the caller before any blob is stored), the blob is stored, the session
metadata is read with an empty-object default, the active conference is
looked up by name (the name defaults to the callSid, so the lookup is
always attempted; its failure is caught), and the three playback tiers run:
conference announce, participant announce (both failures caught and
logged), then the TwiML replacement, whose failure is NOT caught and so
surfaces to the caller.  The tier parameters that depend on external
services are the world's outcome fields.
-/

structure CallMetaR where
  conferenceSid : Option String
  conferenceName : Option String
deriving Repr, DecidableEq

inductive TtsAction where
  | confLookup
  | confAnnounce
  | partAnnounce
  | twimlUpdate
deriving Repr, DecidableEq

structure TtsWorld where
  twilioConfigured : Bool
  publicBaseUrl : String
  meta : Option CallMetaR
  synthOk : Bool
  lookupResult : Option String
  confAnnounceOk : Bool
  partAnnounceOk : Bool
  twimlUpdateOk : Bool
deriving Repr, DecidableEq

structure TtsOutcome where
  skipped : Bool
  synthesized : Bool
  blobStored : Bool
  actions : List TtsAction
  errored : Bool
deriving Repr, DecidableEq

def ttsSkip : TtsOutcome := ⟨true, false, false, [], false⟩

/-- The conference sid used by the tier logic: the in-progress lookup
result when the lookup finds one, else the cached session value. -/
def resolvedConfSid (w : TtsWorld) : Option String :=
  match w.lookupResult with
  | some sid => some sid
  | none => (w.meta.getD ⟨none, none⟩).conferenceSid

def respondWithTts (w : TtsWorld) (callSid : String) : TtsOutcome :=
  if w.twilioConfigured = false then ttsSkip
  else if w.publicBaseUrl = "" then ttsSkip
  else if callSid = "" then ttsSkip
  else if w.synthOk = false then ⟨false, false, false, [], true⟩
  else
    match resolvedConfSid w with
    | some _ =>
      if w.confAnnounceOk then
        ⟨false, true, true, [.confLookup, .confAnnounce], false⟩
      else if w.partAnnounceOk then
        ⟨false, true, true, [.confLookup, .confAnnounce, .partAnnounce], false⟩
      else
        ⟨false, true, true, [.confLookup, .confAnnounce, .partAnnounce, .twimlUpdate],
          !w.twimlUpdateOk⟩
    | none => ⟨false, true, true, [.confLookup, .twimlUpdate], !w.twimlUpdateOk⟩

def c7World : TtsWorld := ⟨true, "https://example.org", none, true, none, false, false, true⟩

/-- Counterexample for C7: telephony client and base URL configured, call
identifier present, but NO session metadata for the call.  The operation is
not a no-op: it synthesizes, stores a blob, and makes telephony calls (the
conference lookup and the TwiML fallback), because the source only guards
on the client, the base URL and the callSid, never on metadata absence. -/
theorem tts_missing_meta_not_noop :
    c7World.meta = none ∧
      (respondWithTts c7World "CA123").synthesized = true ∧
      (respondWithTts c7World "CA123").blobStored = true ∧
      (respondWithTts c7World "CA123").actions = [.confLookup, .twimlUpdate] := by
  exact ⟨rfl, rfl, rfl, rfl⟩

/-- Claim C7, amended: the playback announce operation is a no-op (no
synthesis, no blob stored, no telephony call, and no error reported to the
caller) whenever the telephony client is not configured, no base playback
URL is configured, or no call identifier is supplied.  Missing session
metadata does NOT skip: defaults are used (the call identifier stands in
for the conference name). -/
theorem tts_skip_guard (w : TtsWorld) (callSid : String)
    (h : w.twilioConfigured = false ∨ w.publicBaseUrl = "" ∨ callSid = "") :
    respondWithTts w callSid = ttsSkip := by
  unfold respondWithTts
  rcases h with h | h | h
  · rw [if_pos h]
  · rw [h]
    split
    · rfl
    · rw [if_pos rfl]
  · rw [h]
    split
    · rfl
    · split
      · rfl
      · rw [if_pos rfl]

/-- Witness for the amended C7: base URL missing. -/
theorem tts_skip_guard_witness :
    respondWithTts ⟨true, "", some ⟨some "CF1", some "conf"⟩, true, none, true, true, true⟩
      "CA123" = ttsSkip :=
  tts_skip_guard ⟨true, "", some ⟨some "CF1", some "conf"⟩, true, none, true, true, true⟩
    "CA123" (Or.inr (Or.inl rfl))

/-- Claim C8: with the operation past its guards (synthesis succeeded) and
a conference sid available (cached or freshly looked up), the three tiers
run strictly in order - conference announce, then participant announce,
then the TwiML play-and-rejoin replacement - stopping at the first success;
the first two tiers' failures are non-fatal, and a playback failure
surfaces to the caller exactly when all three tiers fail. -/
theorem tts_tier_order (w : TtsWorld) (callSid : String)
    (h1 : w.twilioConfigured = true) (h2 : w.publicBaseUrl ≠ "") (h3 : callSid ≠ "")
    (h4 : w.synthOk = true) (h5 : (resolvedConfSid w).isSome = true) :
    (w.confAnnounceOk = true →
      respondWithTts w callSid = ⟨false, true, true, [.confLookup, .confAnnounce], false⟩) ∧
    (w.confAnnounceOk = false → w.partAnnounceOk = true →
      respondWithTts w callSid
        = ⟨false, true, true, [.confLookup, .confAnnounce, .partAnnounce], false⟩) ∧
    (w.confAnnounceOk = false → w.partAnnounceOk = false →
      respondWithTts w callSid
        = ⟨false, true, true, [.confLookup, .confAnnounce, .partAnnounce, .twimlUpdate],
            !w.twimlUpdateOk⟩) := by
  have hbody : respondWithTts w callSid =
      match resolvedConfSid w with
      | some _ =>
        if w.confAnnounceOk then
          ⟨false, true, true, [.confLookup, .confAnnounce], false⟩
        else if w.partAnnounceOk then
          ⟨false, true, true, [.confLookup, .confAnnounce, .partAnnounce], false⟩
        else
          ⟨false, true, true, [.confLookup, .confAnnounce, .partAnnounce, .twimlUpdate],
            !w.twimlUpdateOk⟩
      | none => ⟨false, true, true, [.confLookup, .twimlUpdate], !w.twimlUpdateOk⟩ := by
    unfold respondWithTts
    rw [h1, h4]
    rw [if_neg (by simp), if_neg h2, if_neg h3, if_neg (by simp)]
  match hc : resolvedConfSid w with
  | none => rw [hc] at h5; exact absurd h5 (by simp)
  | some sid =>
    rw [hc] at hbody
    refine ⟨?_, ?_, ?_⟩
    · intro hca
      rw [hbody, if_pos hca]
    · intro hca hpa
      rw [hbody, if_neg (by rw [hca]; exact Bool.false_ne_true), if_pos hpa]
    · intro hca hpa
      rw [hbody, if_neg (by rw [hca]; exact Bool.false_ne_true),
        if_neg (by rw [hpa]; exact Bool.false_ne_true)]

/-- Witness for C8: all three tiers failing surfaces an error after
attempting them in order. -/
theorem tts_tier_order_witness :
    respondWithTts ⟨true, "https://example.org", some ⟨some "CF1", some "conf"⟩, true,
        some "CF2", false, false, false⟩ "CA123"
      = ⟨false, true, true, [.confLookup, .confAnnounce, .partAnnounce, .twimlUpdate],
          true⟩ :=
  (tts_tier_order ⟨true, "https://example.org", some ⟨some "CF1", some "conf"⟩, true,
      some "CF2", false, false, false⟩ "CA123"
    rfl (by decide) (by decide) rfl rfl).2.2 rfl rfl

/-!
### Audio blob store and byte-serving route

audioStore is a Map from identifier to byte buffer.  respondWithTts stores
the synthesized buffer under a fresh identifier (timestamp digits, a dash,
base36 characters - never a dot) and schedules its deletion 5 * 60 * 1000 ms
later.  The audio route takes the request identifier, removes the first
occurrence of ".mp3" (String.replace with a string pattern replaces the
first occurrence only) and serves the stored buffer, or a 404 (none) when
the key is absent.
-/

def leadMatch : List Char → List Char → Bool
  | [], _ => true
  | _ :: _, [] => false
  | a :: as, b :: bs => a == b && leadMatch as bs

/-- Remove the first occurrence of pat (JS String.replace(pat, '')). -/
def removeFirst (pat : List Char) : List Char → List Char
  | [] => []
  | c :: rest =>
    if leadMatch pat (c :: rest) then (c :: rest).drop pat.length
    else c :: removeFirst pat rest

def stripMp3 (s : String) : String := String.mk (removeFirst ".mp3".toList s.toList)

def storeSet (store : List (String × List Nat)) (k : String) (v : List Nat) :
    List (String × List Nat) :=
  (k, v) :: store.filter fun e => decide (e.1 ≠ k)

def storeDelete (store : List (String × List Nat)) (k : String) :
    List (String × List Nat) :=
  store.filter fun e => decide (e.1 ≠ k)

def storeGet (store : List (String × List Nat)) (k : String) : Option (List Nat) :=
  (store.find? fun e => decide (e.1 = k)).map fun e => e.2

/-- The audio route handler: strip ".mp3" from the request identifier and
look the key up; none models the 404 response, some buf the 200 response
carrying the stored bytes. -/
def serveAudio (store : List (String × List Nat)) (reqId : String) : Option (List Nat) :=
  storeGet store (stripMp3 reqId)

/-- The store as it stands at time t when the blob was stored at time ts
over base: the scheduled deletion has fired exactly when
ts + 5 * 60 * 1000 ≤ t. -/
def blobStoreAt (base : List (String × List Nat)) (id : String) (buf : List Nat)
    (ts t : Nat) : List (String × List Nat) :=
  if t < ts + 5 * 60 * 1000 then storeSet base id buf
  else storeDelete (storeSet base id buf) id

theorem leadMatch_refl : ∀ l : List Char, leadMatch l l = true := by
  intro l
  induction l with
  | nil => rfl
  | cons a as ih => simp [leadMatch, ih]

theorem removeFirst_self (pat : List Char) : removeFirst pat pat = [] := by
  match pat with
  | [] => rfl
  | c :: rest =>
    show removeFirst (c :: rest) (c :: rest) = []
    simp [removeFirst, leadMatch_refl, List.drop_length]

theorem mp3_toList : ".mp3".toList = ['.', 'm', 'p', '3'] := rfl

theorem removeFirst_mp3 : ∀ id : List Char, (∀ c ∈ id, c ≠ '.') →
    removeFirst ['.', 'm', 'p', '3'] (id ++ ['.', 'm', 'p', '3']) = id := by
  intro id
  induction id with
  | nil => intro _; exact removeFirst_self _
  | cons c id ih =>
    intro hc
    have hc1 : c ≠ '.' := hc c (List.mem_cons_self c id)
    have hbeq : ('.' == c) = false := beq_eq_false_iff_ne.mpr fun h => hc1 h.symm
    show removeFirst ['.', 'm', 'p', '3'] (c :: (id ++ ['.', 'm', 'p', '3'])) = c :: id
    simp only [removeFirst, leadMatch, hbeq, Bool.false_and, Bool.false_eq_true, if_false]
    rw [ih fun x hx => hc x (List.mem_cons_of_mem c hx)]

theorem stripMp3_append (id : String) (hid : ∀ c ∈ id.toList, c ≠ '.') :
    stripMp3 (id ++ ".mp3") = id := by
  unfold stripMp3
  rw [show (id ++ ".mp3").toList = id.toList ++ ".mp3".toList by
        simp [String.toList, String.data_append],
    mp3_toList, removeFirst_mp3 id.toList hid]
  rfl

theorem storeGet_set (store : List (String × List Nat)) (k : String) (v : List Nat) :
    storeGet (storeSet store k v) k = some v := by
  unfold storeGet storeSet
  rw [List.find?_cons_of_pos _ (by simp)]
  rfl

theorem storeGet_delete (store : List (String × List Nat)) (k : String) :
    storeGet (storeDelete store k) k = none := by
  unfold storeGet storeDelete
  rw [List.find?_eq_none.mpr]
  · rfl
  · intro e he
    rw [List.mem_filter] at he
    have : e.1 ≠ k := of_decide_eq_true he.2
    simp [this]

/-- Claim C9: a synthesized playback blob stored under a fresh identifier
(never containing a dot) is retrievable through the byte-serving route at
any time before its 5-minute retention elapses, returning the stored bytes
unchanged, and once the retention period has elapsed the blob is removed
and retrieval reports not-found. -/
theorem audio_blob_retention (base : List (String × List Nat)) (id : String)
    (buf : List Nat) (ts t : Nat) (hid : ∀ c ∈ id.toList, c ≠ '.') :
    (t < ts + 5 * 60 * 1000 →
      serveAudio (blobStoreAt base id buf ts t) (id ++ ".mp3") = some buf) ∧
    (ts + 5 * 60 * 1000 ≤ t →
      serveAudio (blobStoreAt base id buf ts t) (id ++ ".mp3") = none) := by
  constructor
  · intro h
    unfold serveAudio blobStoreAt
    rw [if_pos h, stripMp3_append id hid, storeGet_set]
  · intro h
    unfold serveAudio blobStoreAt
    rw [if_neg (by omega), stripMp3_append id hid]
    unfold storeDelete storeGet
    rw [List.find?_eq_none.mpr]
    · rfl
    · intro e he
      rw [List.mem_filter] at he
      have : e.1 ≠ id := of_decide_eq_true he.2
      simp [this]

/-- Witness for C9: a blob stored at 1000 is served at 2000 and gone at
301000. -/
theorem audio_blob_retention_witness :
    serveAudio (blobStoreAt [] "abc123" [7, 8, 9] 1000 2000) ("abc123" ++ ".mp3")
        = some [7, 8, 9] ∧
      serveAudio (blobStoreAt [] "abc123" [7, 8, 9] 1000 301000) ("abc123" ++ ".mp3")
        = none :=
  ⟨(audio_blob_retention [] "abc123" [7, 8, 9] 1000 2000 (by decide)).1 (by decide),
   (audio_blob_retention [] "abc123" [7, 8, 9] 1000 301000 (by decide)).2 (by decide)⟩

end Spec2Proof
